import Mathlib

/-!
Verification of the AI-Presentation-Generator coordinator
(`src/ai_ppt/agents/orchestrator.py`, `src/ai_ppt/common/base_agent.py`,
`src/ai_ppt/common/types.py`, `src/ai_ppt/agents/copywriter.py`) as a shallow
embedding in Lean 4.

Python strings are modelled as Lean `String`; the character-level operations
(`str.strip`, `str.startswith`, slicing) are re-implemented over `List Char`
so that everything is executable and kernel-reducible.  Network calls (MCP
discovery and A2A invocation) are modelled by oracle values threaded through a
`World` record: an `Except String _` for each discovery step (exception text
when the call raises) and a `String` for each provider reply (the value the
never-raising `_call_agent` hands back).  `json.loads` is modelled by an
executable JSON value type and a fuel-based recursive-descent parse restricted
to the forms the coordinator exchanges (objects, arrays, strings with the
common escapes, integers, booleans, null); pydantic validation of
`SlideContent` / `PresentationOutline` is modelled field by field with the
default `extra=ignore` behaviour.
-/

namespace AiPpt

/-! ### Character-level modelling of the Python string operations used -/

/-- Whitespace as recognised by `str.strip` (restricted to the ASCII range
actually produced by the coordinator). -/
def isWsChar (c : Char) : Bool :=
  c = ' ' || c = '\t' || c = '\n' || c = '\r'

/-- Drop leading whitespace. -/
def skipWs : List Char → List Char
  | [] => []
  | c :: cs => if isWsChar c then skipWs cs else c :: cs

/-- Model of Python `str.strip()` over the character list. -/
def trimChars (cs : List Char) : List Char :=
  ((skipWs cs).reverse |> skipWs).reverse

/-- Model of Python `str.strip()`. -/
def pyStrip (s : String) : String := ⟨trimChars s.data⟩

/-- Boolean list-prefix test, model of `str.startswith`. -/
def isPrefixL : List Char → List Char → Bool
  | [], _ => true
  | _ :: _, [] => false
  | p :: ps, c :: cs => p = c && isPrefixL ps cs

/-- Model of `s.startswith(p)`. -/
def pyStartsWith (s p : String) : Bool := isPrefixL p.data s.data

/-- Model of `s.endswith(p)`. -/
def pyEndsWith (s p : String) : Bool := isPrefixL p.data.reverse s.data.reverse

/-- Model of the slice `s[n:]`. -/
def pyDropLeft (s : String) (n : Nat) : String := ⟨s.data.drop n⟩

/-- Model of the slice `s[:-n]` for `n ≤ len(s)`. -/
def pyDropRight (s : String) (n : Nat) : String := ⟨s.data.take (s.data.length - n)⟩

/-- The Markdown-fence cleaning performed identically in the outline, content
and image stages of `OrchestratorAgent.stream`: `strip()`, then drop a leading
"```json" (7 characters), then drop a trailing "```" (3 characters). -/
def clean (s : String) : String :=
  let c1 := pyStrip s
  let c2 := if pyStartsWith c1 "```json" then pyDropLeft c1 7 else c1
  if pyEndsWith c2 "```" then pyDropRight c2 3 else c2

/-! ### Response envelope model and `_call_agent` normalization

The a2a response shapes probed by `_call_agent`: a `Task` result carries a
list of artifacts (absent modelled as `[]`) and an optional status message,
a plain `Message` result carries parts; each `Part` carries optional inline
text (`hasattr(part, "text")` / `part.root.text` probing is modelled by the
`Option`).  A response without a `.root.result` (e.g. a JSON-RPC error reply)
is the `other` constructor.  `str(response)` is modelled by the `strRepr`
argument supplied alongside the envelope. -/

structure Part where
  text : Option String
deriving DecidableEq, Repr

structure Artifact where
  parts : List Part
deriving DecidableEq, Repr

structure TaskResult where
  artifacts : List Artifact
  statusMessageParts : Option (List Part)
deriving DecidableEq, Repr

inductive CallResult where
  | task (t : TaskResult)
  | message (parts : List Part)
deriving DecidableEq, Repr

inductive RpcResponse where
  | success (r : CallResult)
  | other
deriving DecidableEq, Repr

/-- The reversed-artifact scan of `_call_agent` (lines 152–159): walk the given
artifact list in order, look only at the FIRST part of each artifact, and
return its text when that text is present and non-empty. -/
def artifactScan : List Artifact → Option String
  | [] => none
  | a :: rest =>
    match a.parts with
    | [] => artifactScan rest
    | p :: _ =>
      match p.text with
      | some t => if t = "" then artifactScan rest else some t
      | none => artifactScan rest

/-- Tier-2 of `_call_agent` (lines 162–167): the first part of the status
message, returning its text attribute when present (even when empty). -/
def statusText (t : TaskResult) : Option String :=
  match t.statusMessageParts with
  | some (p :: _) => p.text
  | _ => none

/-- Tier-3 of `_call_agent` (lines 170–175): the first part of a plain
message. -/
def messageText : CallResult → Option String
  | .message (p :: _) => p.text
  | _ => none

/-- The three-tier extraction of `_call_agent` (lines 145–178): artifacts in
reverse order, then the status message, then a plain message's parts. -/
def extractText (r : CallResult) : Option String :=
  let tier1 := match r with
    | .task t => artifactScan t.artifacts.reverse
    | .message _ => none
  match tier1 with
  | some t => some t
  | none =>
    let tier2 := match r with
      | .task t => statusText t
      | .message _ => none
    match tier2 with
    | some t => some t
    | none => messageText r

/-- Normalization of a received response in `_call_agent`: tiered extraction
with fallback to `str(response)` (modelled by `strRepr`). -/
def normalizeResponse (resp : RpcResponse) (strRepr : String) : String :=
  match resp with
  | .other => strRepr
  | .success r => (extractText r).getD strRepr

/-- Model of `OrchestratorAgent._call_agent`: the whole body runs under a
`try`/`except Exception` that turns any raised exception `e` into the text
`"Error: {e}"`, so the function always returns a string.  `outcome` is
`.error e` when the transport/invocation raised with message `e`, and
`.ok resp` when a response envelope arrived. -/
def call_agent (outcome : Except String RpcResponse) (strRepr : String) : String :=
  match outcome with
  | .error e => "Error: " ++ e
  | .ok resp => normalizeResponse resp strRepr

/-! Spec-side normalizer (§4.3 of the spec), written from the spec's words for
the refinement proof of C1: tier 1 is "scan artifacts in reverse order and
return the first non-empty text found in the first Part of the first artifact
that has one", expressed with `List.filterMap` and `head?` rather than the
code's early-return loop. -/

/-- The non-empty text of an artifact's first part, when it has one. -/
def firstPartNonemptyText (a : Artifact) : Option String :=
  match a.parts.head? with
  | some p =>
    match p.text with
    | some t => if t = "" then none else some t
    | none => none
  | none => none

/-- Modelled from the spec (§4.3): deterministic three-tier extraction with
first-match-wins priority. -/
def spec_extract_text (r : CallResult) : Option String :=
  let tier1 := match r with
    | .task t => ((t.artifacts.reverse.filterMap firstPartNonemptyText).head?)
    | .message _ => none
  let tier2 := match r with
    | .task t =>
      match t.statusMessageParts with
      | some parts => parts.head?.bind (·.text)
      | none => none
    | .message _ => none
  let tier3 := match r with
    | .message parts => parts.head?.bind (·.text)
    | .task _ => none
  (tier1.orElse fun _ => tier2.orElse fun _ => tier3)

/-! ### `BaseAgent.format_response` (`common/base_agent.py`, lines 74–95) -/

/-- Classification of the Python value handed to `format_response`: a `dict`
or `list` together with its `json.dumps` serialization (`none` when
serialization raises) and its `str(...)` form, or any other value with its
`str(...)` form. -/
inductive PyObj where
  | collection (jsonDump : Option String) (strRepr : String)
  | scalar (strRepr : String)
deriving DecidableEq, Repr

/-- One record of the progress stream, the dictionary built by
`format_response`. -/
structure A2AResponse where
  response_type : String
  is_task_complete : Bool
  require_user_input : Bool
  content : String
deriving DecidableEq, Repr

/-- Model of `BaseAgent.format_response`: `dict`/`list` content is
JSON-serialized (falling back to `str(...)` when `json.dumps` raises), any
other content is stringified, and the four fields of the record are fixed. -/
def format_response (content : PyObj) (is_complete : Bool) : A2AResponse :=
  let content_str :=
    match content with
    | .collection (some j) _ => j
    | .collection none s => s
    | .scalar s => s
  { response_type := "text"
    is_task_complete := is_complete
    require_user_input := false
    content := content_str }

/-- Shorthand for the f-string calls `self.format_response(f"...", ...)` in
the orchestrator, whose content is always a string. -/
def fmt (s : String) (c : Bool) : A2AResponse := format_response (.scalar s) c

/-! ### Executable JSON model of `json.loads` / `json.dumps`

The subset the coordinator exchanges: objects, arrays, strings (with the
common single-character escapes), integers, booleans and null.  Floats and
`\uXXXX` escapes are outside the model. -/

inductive JVal where
  | jnull
  | jbool (b : Bool)
  | jnum (n : Int)
  | jstr (s : String)
  | jarr (elems : List JVal)
  | jobj (members : List (String × JVal))

/-- ASCII decimal digit test. -/
def isDigitChar (c : Char) : Bool := 48 ≤ c.toNat && c.toNat ≤ 57

/-- Value of an ASCII digit character. -/
def digitVal (c : Char) : Nat := c.toNat - 48

/-- The character denoted by a single-character string escape. -/
def escChar (c : Char) : Option Char :=
  if c = '"' then some '"'
  else if c = '\\' then some '\\'
  else if c = '/' then some '/'
  else if c = 'n' then some '\n'
  else if c = 't' then some '\t'
  else if c = 'r' then some '\r'
  else if c = 'b' then some (Char.ofNat 8)
  else if c = 'f' then some (Char.ofNat 12)
  else none

/-- String-literal body scan (after the opening quote); `inEsc` records that
the previous character was a backslash. -/
def parseStrAux (inEsc : Bool) (acc : List Char) : List Char → Option (String × List Char)
  | [] => none
  | c :: rest =>
    if inEsc then
      match escChar c with
      | some d => parseStrAux false (d :: acc) rest
      | none => none
    else if c = '"' then some (⟨acc.reverse⟩, rest)
    else if c = '\\' then parseStrAux true acc rest
    else parseStrAux false (c :: acc) rest

/-- Parse a string literal, positioned after the opening quote. -/
def parseStrLit (cs : List Char) : Option (String × List Char) :=
  parseStrAux false [] cs

/-- Greedy digit scan with accumulator. -/
def parseDigitsAux (acc : Nat) : List Char → Nat × List Char
  | [] => (acc, [])
  | c :: rest =>
    if isDigitChar c then parseDigitsAux (acc * 10 + digitVal c) rest
    else (acc, c :: rest)

/-- Parse an (optionally negated) integer literal. -/
def parseNum : List Char → Option (Int × List Char)
  | [] => none
  | c :: rest =>
    if c = '-' then
      match rest with
      | [] => none
      | d :: rest2 =>
        if isDigitChar d then
          let p := parseDigitsAux (digitVal d) rest2
          some (-(p.1 : Int), p.2)
        else none
    else if isDigitChar c then
      let p := parseDigitsAux (digitVal c) rest
      some ((p.1 : Int), p.2)
    else none

mutual

/-- Fuel-based recursive-descent JSON value parse (model of `json.loads`).
The fuel only bounds structural nesting and member iteration; one unit is
consumed per descent, so any fuel exceeding the input length is adequate. -/
def parseJ : Nat → List Char → Option (JVal × List Char)
  | 0, _ => none
  | f + 1, cs =>
    match skipWs cs with
    | [] => none
    | c :: r =>
      if c = 'n' then
        (match r with
         | 'u' :: 'l' :: 'l' :: r2 => some (.jnull, r2)
         | _ => none)
      else if c = 't' then
        (match r with
         | 'r' :: 'u' :: 'e' :: r2 => some (.jbool true, r2)
         | _ => none)
      else if c = 'f' then
        (match r with
         | 'a' :: 'l' :: 's' :: 'e' :: r2 => some (.jbool false, r2)
         | _ => none)
      else if c = '"' then
        (match parseStrLit r with
         | some (s, r2) => some (.jstr s, r2)
         | none => none)
      else if c = '[' then
        (match skipWs r with
         | ']' :: r2 => some (.jarr [], r2)
         | r2 =>
           match parseElems f r2 with
           | some (vs, r3) => some (.jarr vs, r3)
           | none => none)
      else if c = '{' then
        (match skipWs r with
         | '}' :: r2 => some (.jobj [], r2)
         | r2 =>
           match parseMembers f r2 with
           | some (kvs, r3) => some (.jobj kvs, r3)
           | none => none)
      else
        (match parseNum (c :: r) with
         | some (n, r2) => some (.jnum n, r2)
         | none => none)

/-- Parse a non-empty comma-separated element list up to and including the
closing bracket. -/
def parseElems : Nat → List Char → Option (List JVal × List Char)
  | 0, _ => none
  | f + 1, cs =>
    match parseJ f cs with
    | none => none
    | some (v, r) =>
      match skipWs r with
      | ',' :: r2 =>
        (match parseElems f r2 with
         | some (vs, r3) => some (v :: vs, r3)
         | none => none)
      | ']' :: r2 => some ([v], r2)
      | _ => none

/-- Parse a non-empty comma-separated member list up to and including the
closing brace. -/
def parseMembers : Nat → List Char → Option (List (String × JVal) × List Char)
  | 0, _ => none
  | f + 1, cs =>
    match skipWs cs with
    | '"' :: r =>
      (match parseStrLit r with
       | some (k, r2) =>
         (match skipWs r2 with
          | ':' :: r3 =>
            (match parseJ f r3 with
             | some (v, r4) =>
               (match skipWs r4 with
                | ',' :: r5 =>
                  (match parseMembers f r5 with
                   | some (kvs, r6) => some ((k, v) :: kvs, r6)
                   | none => none)
                | '}' :: r5 => some ([(k, v)], r5)
                | _ => none)
             | none => none)
          | _ => none)
       | none => none)
    | _ => none

end

/-- Model of `json.loads`: parse one value and require only whitespace to
remain. -/
def parseJson (s : String) : Option JVal :=
  match parseJ (s.data.length + 1000) s.data with
  | some (v, rest) => if skipWs rest = [] then some v else none
  | none => none

/-! ### The pydantic data model (`common/types.py`) and its validation -/

/-- `SlideContent` of `common/types.py` (Python `int` as `Int`, `Optional[str]`
as `Option String`). -/
structure SlideContent where
  page_number : Int
  title : String
  layout : String
  body_text : Option String
  speaker_notes : Option String
  image_prompt : Option String
  image_path : Option String
deriving DecidableEq, Repr

/-- `PresentationOutline` of `common/types.py`. -/
structure PresentationOutline where
  topic : String
  slides : List SlideContent
deriving DecidableEq, Repr

/-- Key lookup with Python-`dict` semantics: on duplicate keys the last
binding wins (as produced by `json.loads`). -/
def jLookup (kvs : List (String × JVal)) (k : String) : Option JVal :=
  match kvs with
  | [] => none
  | (k2, v) :: rest =>
    match jLookup rest k with
    | some r => some r
    | none => if k2 = k then some v else none

/-- Validation of an `Optional[str]` pydantic field: absent or `null` gives
`None`, a string gives the string, any other value is a validation error. -/
def validateOptStr : Option JVal → Option (Option String)
  | none => some none
  | some .jnull => some none
  | some (.jstr s) => some (some s)
  | some _ => none

/-- Validation of `SlideContent(**data)`: `page_number` must be an integer,
`title` a string, `layout` a string with default `"Title and Content"`, the
four optional fields as in `validateOptStr`; extra keys are ignored (pydantic
default) and a non-object input is a `TypeError`. -/
def validateSlide : JVal → Option SlideContent
  | .jobj kvs =>
    match jLookup kvs "page_number", jLookup kvs "title" with
    | some (.jnum n), some (.jstr t) =>
      (match jLookup kvs "layout" with
       | none => some "Title and Content"
       | some (.jstr s) => some s
       | some _ => none).bind fun lay =>
      (validateOptStr (jLookup kvs "body_text")).bind fun bt =>
      (validateOptStr (jLookup kvs "speaker_notes")).bind fun sn =>
      (validateOptStr (jLookup kvs "image_prompt")).bind fun ip =>
      (validateOptStr (jLookup kvs "image_path")).map fun ipath =>
      ⟨n, t, lay, bt, sn, ip, ipath⟩
    | _, _ => none
  | _ => none

/-- Validate every element of a JSON array as a `SlideContent`. -/
def validateSlides : List JVal → Option (List SlideContent)
  | [] => some []
  | v :: rest =>
    match validateSlide v, validateSlides rest with
    | some s, some ss => some (s :: ss)
    | _, _ => none

/-- Validation of `PresentationOutline(**data)`: `topic` must be a string and
`slides` a list of valid slides. -/
def validateOutline : JVal → Option PresentationOutline
  | .jobj kvs =>
    match jLookup kvs "topic", jLookup kvs "slides" with
    | some (.jstr t), some (.jarr vs) =>
      (validateSlides vs).map fun ss => ⟨t, ss⟩
    | _, _ => none
  | _ => none

/-! ### Model of `json.dumps` for the fixed shapes the coordinator sends

Key order follows pydantic `model_dump()` field order and `dict` insertion
order; separators are the `json.dumps` defaults `", "` and `": "`.  The
renderer escapes the common control characters; `ensure_ascii` escaping of
non-ASCII text is outside the model, so round-trip theorems assume
escape-free field content. -/

/-- Decimal digits of a natural number (fuel-based, fuel `n + 1` is always
adequate since `n / 10 < n` for positive `n`). -/
def natCharsAux : Nat → Nat → List Char
  | 0, _ => []
  | fuel + 1, n =>
    if n < 10 then [Char.ofNat (48 + n)]
    else natCharsAux fuel (n / 10) ++ [Char.ofNat (48 + n % 10)]

/-- Decimal representation of a natural number. -/
def natRepr (n : Nat) : List Char := natCharsAux (n + 1) n

/-- Decimal representation of an integer, model of Python `repr(int)` as used
by `json.dumps`. -/
def intRepr : Int → List Char
  | .ofNat m => natRepr m
  | .negSucc m => '-' :: natRepr (m + 1)

/-- The escape sequence `json.dumps` emits for one character (identity for
characters needing no escape). -/
def escStrChar (c : Char) : List Char :=
  if c = '"' then ['\\', '"']
  else if c = '\\' then ['\\', '\\']
  else if c = '\n' then ['\\', 'n']
  else if c = '\t' then ['\\', 't']
  else if c = '\r' then ['\\', 'r']
  else [c]

/-- A JSON string literal for `s` (the characters between the quotes are the
`json.dumps` escape of each character). -/
def jstrChars (s : String) : List Char :=
  '"' :: (s.data.map escStrChar).flatten ++ ['"']

/-- Serialization of an `Optional[str]` field value. -/
def joptChars : Option String → List Char
  | none => "null".data
  | some s => jstrChars s

/-- One `"key": value` member in `json.dumps` output (default `": "`
separator). -/
def memberChars (k : String) (vcs : List Char) : List Char :=
  '"' :: k.data ++ '"' :: ':' :: ' ' :: vcs

/-- A non-empty member list in `json.dumps` output (default `", "`
separator). -/
def membersChars : List (String × List Char) → List Char
  | [] => []
  | [(k, vcs)] => memberChars k vcs
  | (k, vcs) :: rest => memberChars k vcs ++ ',' :: ' ' :: membersChars rest

/-- A JSON object in `json.dumps` output. -/
def objChars (ms : List (String × List Char)) : List Char :=
  '{' :: membersChars ms ++ ['}']

/-- Model of `json.dumps(slide.model_dump())`, the wire form of a slide:
pydantic field order, `json.dumps` default separators, `null` for `None`. -/
def dumpSlideChars (s : SlideContent) : List Char :=
  objChars
    [("page_number", intRepr s.page_number),
     ("title", jstrChars s.title),
     ("layout", jstrChars s.layout),
     ("body_text", joptChars s.body_text),
     ("speaker_notes", joptChars s.speaker_notes),
     ("image_prompt", joptChars s.image_prompt),
     ("image_path", joptChars s.image_path)]

/-- Model of `json.dumps(slide.model_dump())` as a string. -/
def dumpSlide (s : SlideContent) : String := ⟨dumpSlideChars s⟩

/-- Model of the content-stage payload
`json.dumps({"slide": slide.model_dump(), "topic": outline.topic})`
(orchestrator lines 260–263). -/
def orchPayload (slide : SlideContent) (topic : String) : String :=
  ⟨objChars [("slide", dumpSlideChars slide), ("topic", jstrChars topic)]⟩

/-! ### The copywriter agent (`agents/copywriter.py`) -/

/-- The merge in `CopywriterAgent.stream` (lines 91–93): only `body_text`,
`speaker_notes` and `image_prompt` are taken from the model result; every
other field keeps the incoming slide's value. -/
def copyMerge (slide result : SlideContent) : SlideContent :=
  { slide with
    body_text := result.body_text
    speaker_notes := result.speaker_notes
    image_prompt := result.image_prompt }

/-- Input handling of `CopywriterAgent.stream` (lines 77–79): `json.loads`
the query, which must be an object with a `"slide"` member validating as a
`SlideContent` and a `"topic"` member (any JSON value); any failure is the
exception path. -/
def copyParseQuery (q : String) : Option (SlideContent × JVal) :=
  match parseJson q with
  | some (.jobj kvs) =>
    match jLookup kvs "slide", jLookup kvs "topic" with
    | some sv, some tv => (validateSlide sv).map fun s => (s, tv)
    | _, _ => none
  | _ => none

/-- Model of `CopywriterAgent.stream`: on success the merged slide's
`model_dump()` dict is the response content (JSON-serialized by
`format_response`); on any exception `e` the response is `"Error: {e}"`
(`errText` models `str(e)`). -/
def copywriter_stream (query : String) (llmResult : SlideContent) (errText : String) : A2AResponse :=
  match copyParseQuery query with
  | some (slide, _topic) =>
    let dump := dumpSlide (copyMerge slide llmResult)
    format_response (.collection (some dump) dump) true
  | none => format_response (.scalar ("Error: " ++ errText)) true

/-! ### The orchestrator pipeline (`OrchestratorAgent.stream`, lines 192–343)

Network effects are oracles in a `World`: each stage's discovery
(`_decide_agent_search_query` never raises; `_find_agent_by_task` may) is an
`Except String Unit` carrying the exception text, and each provider reply is
the string `_call_agent` returns (`_call_agent` is total, see `call_agent`).
Per-slide replies are indexed by the slide's position in the loop. -/

structure World where
  outlineDisc : Except String Unit
  outlineResp : String
  contentDisc : Except String Unit
  contentResp : Nat → String
  imageDisc : Except String Unit
  imageResp : Nat → String
  buildDisc : Except String Unit
  buildResp : String

/-- Content-stage parse of one provider reply (orchestrator lines 268–275):
fence-clean, `json.loads`, `SlideContent(**data)`; `none` is the bare-`except`
path. -/
def parseSlideResp (r : String) : Option SlideContent :=
  (parseJson (clean r)).bind validateSlide

/-- One iteration of the content loop: the parsed slide on success, the
original slide on any parse failure (lines 274–280). -/
def contentUpdateSlide (s : SlideContent) (r : String) : SlideContent :=
  match parseSlideResp r with
  | some s2 => s2
  | none => s

/-- The content loop over the remaining slides, `i` being the enumerate
counter (lines 255–280, slide updates only). -/
def contentLoop (resp : Nat → String) : Nat → List SlideContent → List SlideContent
  | _, [] => []
  | i, s :: rest => contentUpdateSlide s (resp i) :: contentLoop resp (i + 1) rest

/-- The per-slide progress events of the content loop (line 257). -/
def contentEvents (n : Nat) : Nat → List SlideContent → List A2AResponse
  | _, [] => []
  | i, s :: rest =>
    fmt ("正在撰写第 " ++ toString (i + 1) ++ "/" ++ toString n ++ " 页文案：" ++ s.title ++ "...") false
      :: contentEvents n (i + 1) rest

/-- Python truthiness of `slide.image_prompt` (line 294): set and non-empty. -/
def hasPrompt (s : SlideContent) : Bool :=
  match s.image_prompt with
  | some p => if p = "" then false else true
  | none => false

/-- One prompted slide's image-stage update (lines 302–317): fence-clean and
`json.loads` the reply; when it is an object whose `"image_path"` member is a
string, set `image_path` to it; any failure leaves the slide as is.  (A
non-string member would be assigned untyped in Python; the typed model keeps
the slide unchanged in that case, which no claim depends on.) -/
def imageSlideStep (s : SlideContent) (r : String) : SlideContent :=
  match parseJson (clean r) with
  | some (.jobj kvs) =>
    match jLookup kvs "image_path" with
    | some (.jstr p) => { s with image_path := some p }
    | _ => s
  | _ => s

/-- The image loop (lines 292–319): per-slide progress event and update only
for slides with a truthy `image_prompt`; other slides pass through
untouched. -/
def imageLoop (resp : Nat → String) (n : Nat) :
    Nat → List SlideContent → List A2AResponse × List SlideContent
  | _, [] => ([], [])
  | i, s :: rest =>
    let p := imageLoop resp n (i + 1) rest
    if hasPrompt s then
      (fmt ("正在生成第 " ++ toString (i + 1) ++ "/" ++ toString n ++ " 页配图...") false :: p.1,
       imageSlideStep s (resp i) :: p.2)
    else (p.1, s :: p.2)

/-- Outline-stage parse of the cleaned reply (lines 240–241). -/
def parseOutlineResp (cleaned : String) : Option PresentationOutline :=
  (parseJson cleaned).bind validateOutline

/-- Observable result of one pipeline run: the emitted progress events, and
the plan serialized to the build provider when the build call is reached. -/
structure RunResult where
  events : List A2AResponse
  buildInput : Option PresentationOutline
deriving DecidableEq, Repr

/-- Model of `OrchestratorAgent.stream`: the four stages in order with their
per-stage failure policies — outline failures return early with a final
event; content parse failures keep the original slide; an image stage-level
exception is swallowed (`except: pass`) leaving the post-content slides; the
top-level `except` turns a discovery exception into a final `"Error: {e}"`
event; the build reply is embedded in the final completion event without any
error check. -/
def streamRun (query : String) (w : World) : RunResult :=
  let e0 := fmt ("【项目启动】开始处理 PPT 生成项目，主题：\"" ++ query ++ "\"") false
  let e1 := fmt "【流程进度】第 1 步：规划大纲..." false
  match w.outlineDisc with
  | .error e => ⟨[e0, e1, fmt ("Error: " ++ e) true], none⟩
  | .ok _ =>
    let raw := w.outlineResp
    let cleaned := clean raw
    if pyStartsWith cleaned "Error:" then
      ⟨[e0, e1, fmt ("Outliner Agent Failed: " ++ cleaned) true], none⟩
    else
      match parseOutlineResp cleaned with
      | none => ⟨[e0, e1, fmt ("Error from Outliner: " ++ raw) true], none⟩
      | some outline =>
        let n := outline.slides.length
        let e2 := fmt ("【大纲就绪】已生成 " ++ toString n ++ " 页大纲。") false
        let e3 := fmt "【流程进度】第 2 步：生成文案..." false
        match w.contentDisc with
        | .error e => ⟨[e0, e1, e2, e3, fmt ("Error: " ++ e) true], none⟩
        | .ok _ =>
          let cEvents := contentEvents n 0 outline.slides
          let slides2 := contentLoop w.contentResp 0 outline.slides
          let e4 := fmt "【流程进度】第 3 步：生成图片..." false
          let imageResult :=
            match w.imageDisc with
            | .error _ => (([] : List A2AResponse), slides2)
            | .ok _ => imageLoop w.imageResp slides2.length 0 slides2
          let e5 := fmt "【流程进度】第 4 步：构建最终文件..." false
          let plan : PresentationOutline := ⟨outline.topic, imageResult.2⟩
          match w.buildDisc with
          | .error e =>
            ⟨[e0, e1, e2, e3] ++ cEvents ++ [e4] ++ imageResult.1 ++
              [e5, fmt ("Error: " ++ e) true], none⟩
          | .ok _ =>
            ⟨[e0, e1, e2, e3] ++ cEvents ++ [e4] ++ imageResult.1 ++
              [e5, fmt ("【项目完成】PPT 生成完毕！ " ++ w.buildResp) true], some plan⟩

/-! ### Helper lemmas -/

lemma isPrefixL_append_right {p l : List Char} (r : List Char) (h : isPrefixL p l = true) :
    isPrefixL p (l ++ r) = true := by
  induction p generalizing l with
  | nil => rfl
  | cons c cs ih =>
    cases l with
    | nil => simp [isPrefixL] at h
    | cons d ds =>
      simp only [isPrefixL, Bool.and_eq_true] at h ⊢
      exact ⟨h.1, ih h.2⟩

lemma isPrefixL_self_append (p r : List Char) : isPrefixL p (p ++ r) = true := by
  induction p with
  | nil => rfl
  | cons c cs ih => simp [isPrefixL, ih]

/-! ### C6 -/

/-- C6: every exception raised during a provider invocation is absorbed by
`_call_agent`'s `try`/`except` and turned into the text `"Error: {e}"`, so the
caller always receives a string prefixed with the `Error:` marker containing
the underlying error. -/
theorem invocation_error_never_propagates :
    ∀ (e strRepr : String),
      call_agent (.error e) strRepr = "Error: " ++ e
      ∧ pyStartsWith (call_agent (.error e) strRepr) "Error:" = true := by
  intro e strRepr
  refine ⟨rfl, ?_⟩
  show isPrefixL "Error:".data ("Error: " ++ e).data = true
  rw [String.data_append]
  have h7 : isPrefixL "Error:".data "Error: ".data = true := by decide
  exact isPrefixL_append_right _ h7

/-! ### C1 -/

lemma artifactScan_eq_filterMap (as : List Artifact) :
    artifactScan as = (as.filterMap firstPartNonemptyText).head? := by
  induction as with
  | nil => rfl
  | cons a rest ih =>
    cases hp : a.parts with
    | nil =>
      simp [artifactScan, firstPartNonemptyText, List.filterMap_cons, hp, ih]
    | cons p ps =>
      cases ht : p.text with
      | none =>
        simp [artifactScan, firstPartNonemptyText, List.filterMap_cons, hp, ht, ih]
      | some t =>
        by_cases he : t = ""
        · simp [artifactScan, firstPartNonemptyText, List.filterMap_cons, hp, ht, he, ih]
        · simp [artifactScan, firstPartNonemptyText, List.filterMap_cons, hp, ht, he]

lemma extractText_eq_spec (r : CallResult) : extractText r = spec_extract_text r := by
  cases r with
  | task t =>
    simp only [extractText, spec_extract_text, artifactScan_eq_filterMap]
    cases h1 : (t.artifacts.reverse.filterMap firstPartNonemptyText).head? with
    | some v => simp [Option.orElse]
    | none =>
      cases hs : t.statusMessageParts with
      | none => simp [Option.orElse, statusText, messageText, hs]
      | some parts =>
        cases parts with
        | nil => simp [Option.orElse, statusText, messageText, hs]
        | cons p ps =>
          cases ht : p.text with
          | none => simp [Option.orElse, statusText, messageText, hs, ht]
          | some v => simp [Option.orElse, statusText, messageText, hs, ht]
  | message parts =>
    cases parts with
    | nil => simp [extractText, spec_extract_text, Option.orElse, messageText]
    | cons p ps =>
      cases ht : p.text with
      | none => simp [extractText, spec_extract_text, Option.orElse, messageText, ht]
      | some v => simp [extractText, spec_extract_text, Option.orElse, messageText, ht]

/-- C1: `_call_agent`'s normalization is the deterministic three-tier
extraction of §4.3: it refines the spec-worded `spec_extract_text`
(reverse artifact scan for the first non-empty first-part text, then the
status message's first part, then a plain message's first part), falls back
to the stringified envelope when nothing matches or the envelope has no
result, and on the artifact list `[A(empty), B(text = "x")]` returns `"x"`. -/
theorem response_normalization_three_tier :
    (∀ (r : CallResult) (strRepr : String),
        call_agent (.ok (.success r)) strRepr = (spec_extract_text r).getD strRepr)
    ∧ (∀ strRepr : String, call_agent (.ok .other) strRepr = strRepr)
    ∧ extractText (.task ⟨[⟨[⟨some ""⟩]⟩, ⟨[⟨some "x"⟩]⟩], none⟩) = some "x" := by
  refine ⟨?_, fun _ => rfl, by decide⟩
  intro r strRepr
  show (extractText r).getD strRepr = (spec_extract_text r).getD strRepr
  rw [extractText_eq_spec]

/-! ### C10 -/

lemma contentEvents_shape {n i : Nat} {ss : List SlideContent} {e : A2AResponse}
    (h : e ∈ contentEvents n i ss) : ∃ s, e = fmt s false := by
  induction ss generalizing i with
  | nil => simp [contentEvents] at h
  | cons hd tl ih =>
    simp only [contentEvents, List.mem_cons] at h
    rcases h with h | h
    · exact ⟨_, h⟩
    · exact ih h

lemma imageLoop_events_shape {resp : Nat → String} {n i : Nat}
    {ss : List SlideContent} {e : A2AResponse}
    (h : e ∈ (imageLoop resp n i ss).1) : ∃ s, e = fmt s false := by
  induction ss generalizing i with
  | nil => simp [imageLoop] at h
  | cons hd tl ih =>
    by_cases hp : hasPrompt hd
    · simp only [imageLoop, hp, if_true, List.mem_cons] at h
      rcases h with h | h
      · exact ⟨_, h⟩
      · exact ih h
    · simp only [imageLoop, hp, if_false, Bool.false_eq_true] at h
      exact ih h

/-! Branch equations for `streamRun`, one per control-flow exit of
`OrchestratorAgent.stream`. -/

lemma streamRun_outline_disc_error {q : String} {w : World} {msg : String}
    (h : w.outlineDisc = .error msg) :
    streamRun q w =
      ⟨[fmt ("【项目启动】开始处理 PPT 生成项目，主题：\"" ++ q ++ "\"") false,
        fmt "【流程进度】第 1 步：规划大纲..." false,
        fmt ("Error: " ++ msg) true], none⟩ := by
  unfold streamRun
  rw [h]

lemma streamRun_outline_error_marker {q : String} {w : World}
    (h1 : w.outlineDisc = .ok ())
    (h2 : pyStartsWith (clean w.outlineResp) "Error:" = true) :
    streamRun q w =
      ⟨[fmt ("【项目启动】开始处理 PPT 生成项目，主题：\"" ++ q ++ "\"") false,
        fmt "【流程进度】第 1 步：规划大纲..." false,
        fmt ("Outliner Agent Failed: " ++ clean w.outlineResp) true], none⟩ := by
  unfold streamRun
  rw [h1]
  simp only [h2, if_true]

lemma streamRun_outline_parse_fail {q : String} {w : World}
    (h1 : w.outlineDisc = .ok ())
    (h2 : pyStartsWith (clean w.outlineResp) "Error:" = false)
    (h3 : parseOutlineResp (clean w.outlineResp) = none) :
    streamRun q w =
      ⟨[fmt ("【项目启动】开始处理 PPT 生成项目，主题：\"" ++ q ++ "\"") false,
        fmt "【流程进度】第 1 步：规划大纲..." false,
        fmt ("Error from Outliner: " ++ w.outlineResp) true], none⟩ := by
  unfold streamRun
  rw [h1]
  simp only [h2, Bool.false_eq_true, if_false, h3]

lemma streamRun_content_disc_error {q : String} {w : World}
    {outline : PresentationOutline} {msg : String}
    (h1 : w.outlineDisc = .ok ())
    (h2 : pyStartsWith (clean w.outlineResp) "Error:" = false)
    (h3 : parseOutlineResp (clean w.outlineResp) = some outline)
    (h4 : w.contentDisc = .error msg) :
    streamRun q w =
      ⟨[fmt ("【项目启动】开始处理 PPT 生成项目，主题：\"" ++ q ++ "\"") false,
        fmt "【流程进度】第 1 步：规划大纲..." false,
        fmt ("【大纲就绪】已生成 " ++ toString outline.slides.length ++ " 页大纲。") false,
        fmt "【流程进度】第 2 步：生成文案..." false,
        fmt ("Error: " ++ msg) true], none⟩ := by
  unfold streamRun
  rw [h1]
  simp only [h2, Bool.false_eq_true, if_false, h3, h4]

lemma streamRun_build_disc_error {q : String} {w : World}
    {outline : PresentationOutline} {msg : String}
    (h1 : w.outlineDisc = .ok ())
    (h2 : pyStartsWith (clean w.outlineResp) "Error:" = false)
    (h3 : parseOutlineResp (clean w.outlineResp) = some outline)
    (h4 : w.contentDisc = .ok ())
    (h5 : w.buildDisc = .error msg) :
    streamRun q w =
      ⟨[fmt ("【项目启动】开始处理 PPT 生成项目，主题：\"" ++ q ++ "\"") false,
        fmt "【流程进度】第 1 步：规划大纲..." false,
        fmt ("【大纲就绪】已生成 " ++ toString outline.slides.length ++ " 页大纲。") false,
        fmt "【流程进度】第 2 步：生成文案..." false] ++
        contentEvents outline.slides.length 0 outline.slides ++
        [fmt "【流程进度】第 3 步：生成图片..." false] ++
        (match w.imageDisc with
         | .error _ => []
         | .ok _ =>
           (imageLoop w.imageResp (contentLoop w.contentResp 0 outline.slides).length 0
             (contentLoop w.contentResp 0 outline.slides)).1) ++
        [fmt "【流程进度】第 4 步：构建最终文件..." false,
         fmt ("Error: " ++ msg) true], none⟩ := by
  unfold streamRun
  rw [h1]
  simp only [h2, Bool.false_eq_true, if_false, h3, h4, h5]
  rcases w.imageDisc with e | u <;> rfl

lemma streamRun_build_ok {q : String} {w : World}
    {outline : PresentationOutline}
    (h1 : w.outlineDisc = .ok ())
    (h2 : pyStartsWith (clean w.outlineResp) "Error:" = false)
    (h3 : parseOutlineResp (clean w.outlineResp) = some outline)
    (h4 : w.contentDisc = .ok ())
    (h5 : w.buildDisc = .ok ()) :
    streamRun q w =
      ⟨[fmt ("【项目启动】开始处理 PPT 生成项目，主题：\"" ++ q ++ "\"") false,
        fmt "【流程进度】第 1 步：规划大纲..." false,
        fmt ("【大纲就绪】已生成 " ++ toString outline.slides.length ++ " 页大纲。") false,
        fmt "【流程进度】第 2 步：生成文案..." false] ++
        contentEvents outline.slides.length 0 outline.slides ++
        [fmt "【流程进度】第 3 步：生成图片..." false] ++
        (match w.imageDisc with
         | .error _ => []
         | .ok _ =>
           (imageLoop w.imageResp (contentLoop w.contentResp 0 outline.slides).length 0
             (contentLoop w.contentResp 0 outline.slides)).1) ++
        [fmt "【流程进度】第 4 步：构建最终文件..." false,
         fmt ("【项目完成】PPT 生成完毕！ " ++ w.buildResp) true],
       some ⟨outline.topic,
         match w.imageDisc with
         | .error _ => contentLoop w.contentResp 0 outline.slides
         | .ok _ =>
           (imageLoop w.imageResp (contentLoop w.contentResp 0 outline.slides).length 0
             (contentLoop w.contentResp 0 outline.slides)).2⟩⟩ := by
  unfold streamRun
  rw [h1]
  simp only [h2, Bool.false_eq_true, if_false, h3, h4, h5]
  rcases w.imageDisc with e | u <;> rfl

lemma streamRun_events_shape {q : String} {w : World} {e : A2AResponse}
    (h : e ∈ (streamRun q w).events) : ∃ s b, e = fmt s b := by
  rcases hod : w.outlineDisc with msg | u
  · rw [streamRun_outline_disc_error hod] at h
    simp only [List.mem_cons, List.not_mem_nil, or_false] at h
    rcases h with h | h | h <;> exact ⟨_, _, h⟩
  · obtain rfl : u = () := rfl
    by_cases herr : pyStartsWith (clean w.outlineResp) "Error:" = true
    · rw [streamRun_outline_error_marker hod herr] at h
      simp only [List.mem_cons, List.not_mem_nil, or_false] at h
      rcases h with h | h | h <;> exact ⟨_, _, h⟩
    · rw [Bool.not_eq_true] at herr
      rcases hpo : parseOutlineResp (clean w.outlineResp) with _ | outline
      · rw [streamRun_outline_parse_fail hod herr hpo] at h
        simp only [List.mem_cons, List.not_mem_nil, or_false] at h
        rcases h with h | h | h <;> exact ⟨_, _, h⟩
      · rcases hcd : w.contentDisc with msg2 | u2
        · rw [streamRun_content_disc_error hod herr hpo hcd] at h
          simp only [List.mem_cons, List.not_mem_nil, or_false] at h
          rcases h with h | h | h | h | h <;> exact ⟨_, _, h⟩
        · obtain rfl : u2 = () := rfl
          rcases hbd : w.buildDisc with msg3 | u3
          · rw [streamRun_build_disc_error hod herr hpo hcd hbd] at h
            simp only [List.mem_append, List.mem_cons, List.not_mem_nil, or_false] at h
            rcases h with ((((h | h | h | h) | h) | h) | h) | h | h
            all_goals first
              | exact ⟨_, _, h⟩
              | exact (contentEvents_shape h).imp fun s hs => ⟨false, hs⟩
              | (rcases hid : w.imageDisc with ei | u4 <;> rw [hid] at h <;>
                  first
                    | exact (imageLoop_events_shape h).imp fun s hs => ⟨false, hs⟩
                    | simp at h)
          · obtain rfl : u3 = () := rfl
            rw [streamRun_build_ok hod herr hpo hcd hbd] at h
            simp only [List.mem_append, List.mem_cons, List.not_mem_nil, or_false] at h
            rcases h with ((((h | h | h | h) | h) | h) | h) | h | h
            all_goals first
              | exact ⟨_, _, h⟩
              | exact (contentEvents_shape h).imp fun s hs => ⟨false, hs⟩
              | (rcases hid : w.imageDisc with ei | u4 <;> rw [hid] at h <;>
                  first
                    | exact (imageLoop_events_shape h).imp fun s hs => ⟨false, hs⟩
                    | simp at h)

/-- C10: `format_response` always returns a record with `response_type`
`"text"`, `require_user_input` `false`, `is_task_complete` equal to the flag,
and string content — the JSON serialization when the input is a `dict`/`list`
(falling back to `str(...)` when serialization raises) and `str(...)`
otherwise — and consequently every record on the orchestrator's progress
stream has `response_type = "text"` and `require_user_input = false`. -/
theorem format_response_fixed_shape :
    (∀ (c : PyObj) (b : Bool),
        (format_response c b).response_type = "text"
        ∧ (format_response c b).require_user_input = false
        ∧ (format_response c b).is_task_complete = b)
    ∧ (∀ (j s : String) (b : Bool), (format_response (.collection (some j) s) b).content = j)
    ∧ (∀ (s : String) (b : Bool), (format_response (.collection none s) b).content = s)
    ∧ (∀ (s : String) (b : Bool), (format_response (.scalar s) b).content = s)
    ∧ (∀ (q : String) (w : World) (e : A2AResponse), e ∈ (streamRun q w).events →
        e.response_type = "text" ∧ e.require_user_input = false) := by
  refine ⟨fun c b => ⟨rfl, rfl, rfl⟩, fun j s b => rfl, fun s b => rfl, fun s b => rfl, ?_⟩
  intro q w e h
  obtain ⟨s, b, rfl⟩ := streamRun_events_shape h
  exact ⟨rfl, rfl⟩

/-! ### C2 -/

/-- C2: when the outline provider call fails — the cleaned reply carries the
`Error:` marker or does not parse into a plan — the run ends immediately with
a single final event (carrying the cleaned marker text, resp. the raw reply)
after only the two start-up progress events; the result is a closed
three-event list that does not depend on the content/image/build oracles, and
`buildInput = none` shows the build call is never made, so no later stage is
attempted. -/
theorem outline_failure_fatal :
    ∀ (q : String) (w : World), w.outlineDisc = .ok () →
      (pyStartsWith (clean w.outlineResp) "Error:" = true →
        streamRun q w =
          ⟨[fmt ("【项目启动】开始处理 PPT 生成项目，主题：\"" ++ q ++ "\"") false,
            fmt "【流程进度】第 1 步：规划大纲..." false,
            fmt ("Outliner Agent Failed: " ++ clean w.outlineResp) true], none⟩)
      ∧ (pyStartsWith (clean w.outlineResp) "Error:" = false →
          parseOutlineResp (clean w.outlineResp) = none →
        streamRun q w =
          ⟨[fmt ("【项目启动】开始处理 PPT 生成项目，主题：\"" ++ q ++ "\"") false,
            fmt "【流程进度】第 1 步：规划大纲..." false,
            fmt ("Error from Outliner: " ++ w.outlineResp) true], none⟩) := by
  intro q w h1
  exact ⟨fun h2 => streamRun_outline_error_marker h1 h2,
         fun h2 h3 => streamRun_outline_parse_fail h1 h2 h3⟩

/-- A run whose outline provider invocation failed (`_call_agent` returned an
`Error:`-marked text); the other oracles would succeed. -/
def wOutlineErr : World :=
  ⟨.ok (), "Error: x", .ok (), fun _ => "", .ok (), fun _ => "", .ok (), ""⟩

theorem outline_failure_fatal_witness :
    wOutlineErr.outlineDisc = .ok ()
    ∧ pyStartsWith (clean wOutlineErr.outlineResp) "Error:" = true
    ∧ streamRun "Mars" wOutlineErr =
        ⟨[fmt ("【项目启动】开始处理 PPT 生成项目，主题：\"" ++ "Mars" ++ "\"") false,
          fmt "【流程进度】第 1 步：规划大纲..." false,
          fmt ("Outliner Agent Failed: " ++ clean wOutlineErr.outlineResp) true], none⟩ :=
  ⟨rfl, by decide, (outline_failure_fatal "Mars" wOutlineErr rfl).1 (by decide)⟩

/-! ### C3 -/

lemma contentLoop_length (resp : Nat → String) (i : Nat) (ss : List SlideContent) :
    (contentLoop resp i ss).length = ss.length := by
  induction ss generalizing i with
  | nil => rfl
  | cons s rest ih => simp [contentLoop, ih]

lemma contentLoop_getElem? (resp : Nat → String) (i : Nat) (ss : List SlideContent)
    (j : Nat) :
    (contentLoop resp i ss)[j]? =
      (ss[j]?).map (fun s => contentUpdateSlide s (resp (i + j))) := by
  induction ss generalizing i j with
  | nil => simp [contentLoop]
  | cons s rest ih =>
    cases j with
    | zero => simp [contentLoop]
    | succ k =>
      have harith : i + 1 + k = i + (k + 1) := by omega
      simp [contentLoop, List.getElem?_cons_succ, ih (i + 1) k, harith]

/-- C3: the content stage maps the slide list positionally — same length,
same order, slide `j` replaced by the parsed reply for slide `j` when it
parses and kept exactly equal to its pre-stage value when it does not — and
whatever the per-slide replies are, the run still emits the image-stage and
build-stage progress events (the loop never aborts the pipeline). -/
theorem content_stage_preserves_slides :
    (∀ (resp : Nat → String) (i : Nat) (ss : List SlideContent),
        (contentLoop resp i ss).length = ss.length)
    ∧ (∀ (resp : Nat → String) (i : Nat) (ss : List SlideContent) (j : Nat),
        (contentLoop resp i ss)[j]? =
          (ss[j]?).map (fun s => contentUpdateSlide s (resp (i + j))))
    ∧ (∀ (resp : Nat → String) (i : Nat) (ss : List SlideContent) (j : Nat),
        parseSlideResp (resp (i + j)) = none →
        (contentLoop resp i ss)[j]? = ss[j]?)
    ∧ (∀ (q : String) (w : World) (outline : PresentationOutline),
        w.outlineDisc = .ok () →
        pyStartsWith (clean w.outlineResp) "Error:" = false →
        parseOutlineResp (clean w.outlineResp) = some outline →
        w.contentDisc = .ok () →
        fmt "【流程进度】第 3 步：生成图片..." false ∈ (streamRun q w).events
        ∧ fmt "【流程进度】第 4 步：构建最终文件..." false ∈ (streamRun q w).events) := by
  refine ⟨contentLoop_length, contentLoop_getElem?, ?_, ?_⟩
  · intro resp i ss j h
    rw [contentLoop_getElem?]
    cases hj : ss[j]? with
    | none => rfl
    | some s => simp [contentUpdateSlide, h]
  · intro q w outline h1 h2 h3 h4
    rcases hbd : w.buildDisc with msg | u3
    · rw [streamRun_build_disc_error h1 h2 h3 h4 hbd]
      constructor <;> simp
    · obtain rfl : u3 = () := rfl
      rw [streamRun_build_ok h1 h2 h3 h4 hbd]
      constructor <;> simp

/-- A run whose outline reply is a one-slide plan and whose content replies
are unparseable; image and build would succeed. -/
def wContentFail : World :=
  ⟨.ok (), "\x7b\"topic\": \"t\", \"slides\": [\x7b\"page_number\": 1, \"title\": \"A\"\x7d]\x7d",
   .ok (), fun _ => "bad", .ok (), fun _ => "", .ok (), "out.pptx"⟩

theorem content_stage_preserves_slides_witness :
    parseSlideResp "bad" = none
    ∧ (contentLoop (fun _ => "bad") 0
        [⟨1, "A", "Title and Content", none, none, none, none⟩])[0]? =
        ([⟨1, "A", "Title and Content", none, none, none, none⟩] : List SlideContent)[0]?
    ∧ parseOutlineResp (clean wContentFail.outlineResp) =
        some ⟨"t", [⟨1, "A", "Title and Content", none, none, none, none⟩]⟩
    ∧ fmt "【流程进度】第 4 步：构建最终文件..." false ∈ (streamRun "t" wContentFail).events :=
  ⟨by decide, content_stage_preserves_slides.2.2.1 (fun _ => "bad") 0 _ 0 (by decide),
   by decide,
   (content_stage_preserves_slides.2.2.2 "t" wContentFail
      ⟨"t", [⟨1, "A", "Title and Content", none, none, none, none⟩]⟩
      rfl (by decide) (by decide) rfl).2⟩

/-! ### C5 -/

/-- C5: when the image stage's capability lookup raises, the stage-level
`except` swallows the failure before any per-slide work: no image-stage event
is emitted, the run still reaches the build stage, and (when build discovery
succeeds) the plan serialized to the build provider is exactly the
post-content plan — every slide, `image_path` included, is as the content
stage left it. -/
theorem image_stage_skipped_on_lookup_failure :
    ∀ (q : String) (w : World) (outline : PresentationOutline) (msg : String),
      w.outlineDisc = .ok () →
      pyStartsWith (clean w.outlineResp) "Error:" = false →
      parseOutlineResp (clean w.outlineResp) = some outline →
      w.contentDisc = .ok () →
      w.imageDisc = .error msg →
      (fmt "【流程进度】第 4 步：构建最终文件..." false ∈ (streamRun q w).events)
      ∧ (w.buildDisc = .ok () →
          streamRun q w =
            ⟨[fmt ("【项目启动】开始处理 PPT 生成项目，主题：\"" ++ q ++ "\"") false,
              fmt "【流程进度】第 1 步：规划大纲..." false,
              fmt ("【大纲就绪】已生成 " ++ toString outline.slides.length ++ " 页大纲。") false,
              fmt "【流程进度】第 2 步：生成文案..." false] ++
              contentEvents outline.slides.length 0 outline.slides ++
              [fmt "【流程进度】第 3 步：生成图片..." false,
               fmt "【流程进度】第 4 步：构建最终文件..." false,
               fmt ("【项目完成】PPT 生成完毕！ " ++ w.buildResp) true],
             some ⟨outline.topic, contentLoop w.contentResp 0 outline.slides⟩⟩) := by
  intro q w outline msg h1 h2 h3 h4 h5
  constructor
  · rcases hbd : w.buildDisc with msg2 | u3
    · rw [streamRun_build_disc_error h1 h2 h3 h4 hbd]
      simp
    · obtain rfl : u3 = () := rfl
      rw [streamRun_build_ok h1 h2 h3 h4 hbd]
      simp
  · intro hbd
    rw [streamRun_build_ok h1 h2 h3 h4 hbd, h5]
    simp

/-- A run whose image-stage capability lookup raises; everything else
succeeds. -/
def wImgErr : World :=
  ⟨.ok (), "\x7b\"topic\": \"t\", \"slides\": []\x7d",
   .ok (), fun _ => "", .error "img down", fun _ => "", .ok (), "out.pptx"⟩

theorem image_stage_skipped_on_lookup_failure_witness :
    (streamRun "t" wImgErr).buildInput = some ⟨"t", []⟩ := by
  have h := (image_stage_skipped_on_lookup_failure "t" wImgErr ⟨"t", []⟩ "img down"
    rfl (by decide) (by decide) rfl rfl).2 rfl
  rw [h]
  rfl

/-! ### C8 -/

lemma contentEvents_filter_final (n i : Nat) (ss : List SlideContent) :
    (contentEvents n i ss).filter (fun e => e.is_task_complete) = [] := by
  induction ss generalizing i with
  | nil => rfl
  | cons s rest ih => simp [contentEvents, List.filter_cons, fmt, format_response, ih]

lemma imageLoop_filter_final (resp : Nat → String) (n i : Nat) (ss : List SlideContent) :
    ((imageLoop resp n i ss).1).filter (fun e => e.is_task_complete) = [] := by
  induction ss generalizing i with
  | nil => rfl
  | cons s rest ih =>
    by_cases hp : hasPrompt s
    · simp [imageLoop, hp, List.filter_cons, fmt, format_response, ih]
    · simp [imageLoop, hp, ih]

/-- C8: every run's event sequence has exactly one record with
`is_task_complete = true`, that record is the last one, and its content is
either the completion message embedding the build provider's reply or one of
the three error-message forms. -/
theorem single_final_event :
    ∀ (q : String) (w : World), ∃ last : A2AResponse,
      ((streamRun q w).events.filter (fun e => e.is_task_complete)).length = 1
      ∧ (streamRun q w).events.getLast? = some last
      ∧ last.is_task_complete = true
      ∧ (last.content = "【项目完成】PPT 生成完毕！ " ++ w.buildResp
         ∨ ∃ msg, last.content = "Error: " ++ msg
                ∨ last.content = "Outliner Agent Failed: " ++ msg
                ∨ last.content = "Error from Outliner: " ++ msg) := by
  intro q w
  rcases hod : w.outlineDisc with msg | u
  · refine ⟨fmt ("Error: " ++ msg) true, ?_, ?_, rfl, .inr ⟨msg, .inl rfl⟩⟩
    · rw [streamRun_outline_disc_error hod]
      simp [List.filter_cons, fmt, format_response]
    · rw [streamRun_outline_disc_error hod]
      rfl
  · obtain rfl : u = () := rfl
    by_cases herr : pyStartsWith (clean w.outlineResp) "Error:" = true
    · refine ⟨fmt ("Outliner Agent Failed: " ++ clean w.outlineResp) true,
        ?_, ?_, rfl, .inr ⟨clean w.outlineResp, .inr (.inl rfl)⟩⟩
      · rw [streamRun_outline_error_marker hod herr]
        simp [List.filter_cons, fmt, format_response]
      · rw [streamRun_outline_error_marker hod herr]
        rfl
    · rw [Bool.not_eq_true] at herr
      rcases hpo : parseOutlineResp (clean w.outlineResp) with _ | outline
      · refine ⟨fmt ("Error from Outliner: " ++ w.outlineResp) true,
          ?_, ?_, rfl, .inr ⟨w.outlineResp, .inr (.inr rfl)⟩⟩
        · rw [streamRun_outline_parse_fail hod herr hpo]
          simp [List.filter_cons, fmt, format_response]
        · rw [streamRun_outline_parse_fail hod herr hpo]
          rfl
      · rcases hcd : w.contentDisc with msg2 | u2
        · refine ⟨fmt ("Error: " ++ msg2) true, ?_, ?_, rfl, .inr ⟨msg2, .inl rfl⟩⟩
          · rw [streamRun_content_disc_error hod herr hpo hcd]
            simp [List.filter_cons, fmt, format_response]
          · rw [streamRun_content_disc_error hod herr hpo hcd]
            rfl
        · obtain rfl : u2 = () := rfl
          rcases hbd : w.buildDisc with msg3 | u3
          · refine ⟨fmt ("Error: " ++ msg3) true, ?_, ?_, rfl, .inr ⟨msg3, .inl rfl⟩⟩
            · rw [streamRun_build_disc_error hod herr hpo hcd hbd]
              rcases hid : w.imageDisc with ei | u4 <;>
                simp [List.filter_append, List.filter_cons, fmt, format_response,
                  contentEvents_filter_final, imageLoop_filter_final]
            · rw [streamRun_build_disc_error hod herr hpo hcd hbd]
              rw [List.getLast?_append]
              rfl
          · obtain rfl : u3 = () := rfl
            refine ⟨fmt ("【项目完成】PPT 生成完毕！ " ++ w.buildResp) true,
              ?_, ?_, rfl, .inl rfl⟩
            · rw [streamRun_build_ok hod herr hpo hcd hbd]
              rcases hid : w.imageDisc with ei | u4 <;>
                simp [List.filter_append, List.filter_cons, fmt, format_response,
                  contentEvents_filter_final, imageLoop_filter_final]
            · rw [streamRun_build_ok hod herr hpo hcd hbd]
              rw [List.getLast?_append]
              rfl

/-! ### C7 -/

/-- C7: the cleaning step removes a leading "```json" and a trailing "```"
after whitespace trimming — for any already-trimmed fenced text the clean
result is exactly the enclosed text — and on the spec's concrete example the
fenced reply parses to exactly the same plan as the bare JSON object. -/
theorem markdown_fence_strip_parse :
    (∀ mid : String,
        trimChars ("```json".data ++ mid.data ++ "```".data) =
          "```json".data ++ mid.data ++ "```".data →
        clean ⟨"```json".data ++ mid.data ++ "```".data⟩ = mid)
    ∧ parseOutlineResp (clean "```json\n\x7b\"topic\":\"t\",\"slides\":[]\x7d\n```") =
        parseOutlineResp (clean "\x7b\"topic\":\"t\",\"slides\":[]\x7d")
    ∧ parseOutlineResp (clean "\x7b\"topic\":\"t\",\"slides\":[]\x7d") = some ⟨"t", []⟩ := by
  refine ⟨?_, by decide, by decide⟩
  intro mid h
  have h1 : pyStrip ⟨"```json".data ++ mid.data ++ "```".data⟩ =
      ⟨"```json".data ++ mid.data ++ "```".data⟩ := congrArg String.mk h
  have h2 : pyStartsWith ⟨"```json".data ++ mid.data ++ "```".data⟩ "```json" = true := by
    show isPrefixL "```json".data ("```json".data ++ mid.data ++ "```".data) = true
    rw [List.append_assoc]
    exact isPrefixL_self_append _ _
  have h3 : pyDropLeft ⟨"```json".data ++ mid.data ++ "```".data⟩ 7 =
      ⟨mid.data ++ "```".data⟩ := by
    show (⟨("```json".data ++ mid.data ++ "```".data).drop 7⟩ : String) = _
    rw [List.append_assoc]
    exact congrArg String.mk (List.drop_left "```json".data (mid.data ++ "```".data))
  have h4 : pyEndsWith ⟨mid.data ++ "```".data⟩ "```" = true := by
    show isPrefixL "```".data.reverse (mid.data ++ "```".data).reverse = true
    rw [List.reverse_append]
    exact isPrefixL_self_append _ _
  have h5 : pyDropRight ⟨mid.data ++ "```".data⟩ 3 = mid := by
    show (⟨(mid.data ++ "```".data).take ((mid.data ++ "```".data).length - 3)⟩ : String) = mid
    have hlen : (mid.data ++ "```".data).length - 3 = mid.data.length := by
      rw [List.length_append]
      have hticks : ("```".data).length = 3 := rfl
      omega
    rw [hlen]
    exact congrArg String.mk (List.take_left mid.data "```".data)
  unfold clean
  rw [h1]
  simp only [h2, if_true, h3, h4, h5]

theorem markdown_fence_strip_parse_witness :
    trimChars ("```json".data ++ "\n\x7b\"topic\":\"t\",\"slides\":[]\x7d\n".data ++ "```".data) =
      "```json".data ++ "\n\x7b\"topic\":\"t\",\"slides\":[]\x7d\n".data ++ "```".data
    ∧ clean ⟨"```json".data ++ "\n\x7b\"topic\":\"t\",\"slides\":[]\x7d\n".data ++ "```".data⟩ =
        "\n\x7b\"topic\":\"t\",\"slides\":[]\x7d\n" :=
  ⟨by decide, markdown_fence_strip_parse.1 "\n\x7b\"topic\":\"t\",\"slides\":[]\x7d\n" (by decide)⟩

/-! ### C4 -/

/-- A run in which everything succeeds up to the build stage, whose provider
call then fails: `_call_agent` hands back the marker text `"Error: boom"`. -/
def wBuildErr : World :=
  ⟨.ok (), "\x7b\"topic\": \"t\", \"slides\": []\x7d",
   .ok (), fun _ => "", .ok (), fun _ => "", .ok (), "Error: boom"⟩

/-- C4 counterexample: when the build provider call fails with
provider-reported error text, the final event is NOT a failure message — it
is the success-template message `"【项目完成】PPT 生成完毕！ ..."` with the raw
`Error:` text merely embedded, because `stream` performs no error check on the
build reply (orchestrator lines 335–337). -/
theorem build_failure_final_event_is_success_template :
    (streamRun "t" wBuildErr).events.getLast? =
      some (fmt ("【项目完成】PPT 生成完毕！ " ++ "Error: boom") true)
    ∧ pyStartsWith ("【项目完成】PPT 生成完毕！ " ++ "Error: boom") "【项目完成】" = true
    ∧ pyStartsWith ("【项目完成】PPT 生成完毕！ " ++ "Error: boom") "Error:" = false := by
  refine ⟨?_, by decide, by decide⟩
  decide

/-- C4 (amended): a build-stage discovery exception is fatal — the run's last
event is the final `"Error: {e}"` message and the build call is never made;
a failed build provider call (invocation error or provider-reported error
text) is not detected — its raw text is surfaced verbatim in the single final
event, but embedded in the success-completion template rather than as a
distinct failure message. -/
theorem build_stage_error_surfacing :
    ∀ (q : String) (w : World) (outline : PresentationOutline),
      w.outlineDisc = .ok () →
      pyStartsWith (clean w.outlineResp) "Error:" = false →
      parseOutlineResp (clean w.outlineResp) = some outline →
      w.contentDisc = .ok () →
      (∀ msg, w.buildDisc = .error msg →
        (streamRun q w).events.getLast? = some (fmt ("Error: " ++ msg) true)
        ∧ (streamRun q w).buildInput = none)
      ∧ (w.buildDisc = .ok () →
        (streamRun q w).events.getLast? =
          some (fmt ("【项目完成】PPT 生成完毕！ " ++ w.buildResp) true)) := by
  intro q w outline h1 h2 h3 h4
  constructor
  · intro msg h5
    rw [streamRun_build_disc_error h1 h2 h3 h4 h5]
    constructor
    · rw [List.getLast?_append]
      rfl
    · rfl
  · intro h5
    rw [streamRun_build_ok h1 h2 h3 h4 h5]
    rw [List.getLast?_append]
    rfl

theorem build_stage_error_surfacing_witness :
    (streamRun "t" wBuildErr).events.getLast? =
      some (fmt ("【项目完成】PPT 生成完毕！ " ++ wBuildErr.buildResp) true) :=
  (build_stage_error_surfacing "t" wBuildErr ⟨"t", []⟩ rfl (by decide) (by decide) rfl).2 rfl

/-! ### Round-trip infrastructure for C9

`json.dumps` output for content whose characters need no escaping (and, for
Chinese text, ignoring `ensure_ascii` `\uXXXX` transport, which round-trips
through `json.loads` unchanged) parses back to the same value.  The safety
predicate admits every character except the five the renderer escapes. -/

/-- A character the renderer emits verbatim. -/
def safeChar (c : Char) : Bool :=
  !(c = '"' || c = '\\' || c = '\n' || c = '\t' || c = '\r')

/-- A string needing no escaping. -/
def safeStr (s : String) : Bool := s.data.all safeChar

/-- Safety of an optional field. -/
def safeOptStr : Option String → Bool
  | none => true
  | some s => safeStr s

/-- Safety of every string field of a slide. -/
def safeSlide (s : SlideContent) : Bool :=
  safeStr s.title && safeStr s.layout && safeOptStr s.body_text &&
    safeOptStr s.speaker_notes && safeOptStr s.image_prompt && safeOptStr s.image_path

lemma escStrChar_of_safe {c : Char} (h : safeChar c = true) : escStrChar c = [c] := by
  unfold safeChar at h
  simp only [Bool.not_eq_true', Bool.or_eq_false_iff, decide_eq_false_iff_not] at h
  obtain ⟨⟨⟨⟨h1, h2⟩, h3⟩, h4⟩, h5⟩ := h
  simp [escStrChar, h1, h2, h3, h4, h5]

lemma flatten_escStrChar {l : List Char} (h : l.all safeChar = true) :
    (l.map escStrChar).flatten = l := by
  induction l with
  | nil => rfl
  | cons c cs ih =>
    simp only [List.all_cons, Bool.and_eq_true] at h
    simp [escStrChar_of_safe h.1, ih h.2]

lemma jstrChars_of_safe {s : String} (h : safeStr s = true) :
    jstrChars s = '"' :: s.data ++ ['"'] := by
  unfold jstrChars
  rw [flatten_escStrChar h]

lemma parseStrAux_safe {l : List Char} (h : l.all safeChar = true) :
    ∀ (acc rest : List Char),
      parseStrAux false acc (l ++ '"' :: rest) = some (⟨acc.reverse ++ l⟩, rest) := by
  induction l with
  | nil => intro acc rest; simp [parseStrAux]
  | cons c cs ih =>
    intro acc rest
    simp only [List.all_cons, Bool.and_eq_true] at h
    have hsafe := h.1
    unfold safeChar at hsafe
    simp only [Bool.not_eq_true', Bool.or_eq_false_iff, decide_eq_false_iff_not] at hsafe
    obtain ⟨⟨⟨⟨h1, h2⟩, _⟩, _⟩, _⟩ := hsafe
    show parseStrAux false acc (c :: (cs ++ '"' :: rest)) = _
    rw [parseStrAux]
    simp only [if_neg h1, if_neg h2, Bool.false_eq_true, if_false]
    rw [ih h.2 (c :: acc) rest]
    simp

lemma parseStrLit_safe {s : String} (h : safeStr s = true) (rest : List Char) :
    parseStrLit (s.data ++ '"' :: rest) = some (s, rest) := by
  unfold parseStrLit
  rw [parseStrAux_safe h [] rest]
  simp

/-- The character after a rendered number in `json.dumps` output is never a
digit, so the greedy digit scan stops exactly at the number's end. -/
def delimHead : List Char → Bool
  | [] => true
  | c :: _ => !(isDigitChar c)

lemma isDigitChar_ofNat {m : Nat} (h : m < 10) :
    isDigitChar (Char.ofNat (48 + m)) = true := by
  interval_cases m <;> decide

lemma digitVal_ofNat {m : Nat} (h : m < 10) :
    digitVal (Char.ofNat (48 + m)) = m := by
  interval_cases m <;> decide

lemma digit_toNat {c : Char} (h : isDigitChar c = true) :
    48 ≤ c.toNat ∧ c.toNat ≤ 57 := by
  unfold isDigitChar at h
  simp only [Bool.and_eq_true, decide_eq_true_eq] at h
  exact h

lemma digit_ne {c : Char} (h : isDigitChar c = true) (d : Char)
    (hd : d.toNat < 48 ∨ 57 < d.toNat) : ¬ c = d := by
  intro hc
  subst hc
  have := digit_toNat h
  omega

lemma digit_not_ws {c : Char} (h : isDigitChar c = true) : isWsChar c = false := by
  have h1 : ¬ c = ' ' := digit_ne h ' ' (by decide)
  have h2 : ¬ c = '\t' := digit_ne h '\t' (by decide)
  have h3 : ¬ c = '\n' := digit_ne h '\n' (by decide)
  have h4 : ¬ c = '\r' := digit_ne h '\r' (by decide)
  simp [isWsChar, h1, h2, h3, h4]

lemma natCharsAux_adequate : ∀ (n f : Nat), n < f → natCharsAux f n = natRepr n := by
  intro n
  induction n using Nat.strong_induction_on with
  | _ n ih =>
    intro f hf
    obtain ⟨g, rfl⟩ : ∃ g, f = g + 1 := ⟨f - 1, by omega⟩
    unfold natRepr
    by_cases h10 : n < 10
    · simp [natCharsAux, h10]
    · have hdiv : n / 10 < n := Nat.div_lt_self (by omega) (by omega)
      have hl : natCharsAux (g + 1) n =
          natCharsAux g (n / 10) ++ [Char.ofNat (48 + n % 10)] := by
        rw [natCharsAux, if_neg h10]
      have hr : natCharsAux (n + 1) n =
          natCharsAux n (n / 10) ++ [Char.ofNat (48 + n % 10)] := by
        rw [natCharsAux, if_neg h10]
      rw [hl, hr, ih (n / 10) hdiv g (by omega), ih (n / 10) hdiv n hdiv]

lemma natRepr_small {n : Nat} (h : n < 10) : natRepr n = [Char.ofNat (48 + n)] := by
  unfold natRepr
  rw [natCharsAux, if_pos h]

lemma natRepr_step {n : Nat} (h : ¬ n < 10) :
    natRepr n = natRepr (n / 10) ++ [Char.ofNat (48 + n % 10)] := by
  unfold natRepr
  rw [natCharsAux, if_neg h,
    natCharsAux_adequate (n / 10) n (Nat.div_lt_self (by omega) (by omega))]
  rfl

lemma natRepr_all_digits : ∀ n : Nat, (natRepr n).all isDigitChar = true := by
  intro n
  induction n using Nat.strong_induction_on with
  | _ n ih =>
    by_cases h10 : n < 10
    · rw [natRepr_small h10]
      simp [isDigitChar_ofNat h10]
    · rw [natRepr_step h10]
      have hdiv : n / 10 < n := Nat.div_lt_self (by omega) (by omega)
      simp [List.all_append, ih (n / 10) hdiv,
        isDigitChar_ofNat (Nat.mod_lt n (by omega))]

lemma natRepr_ne_nil (n : Nat) : natRepr n ≠ [] := by
  by_cases h10 : n < 10
  · rw [natRepr_small h10]
    simp
  · rw [natRepr_step h10]
    simp

lemma parseDigitsAux_natRepr : ∀ (n acc : Nat) (rest : List Char),
    parseDigitsAux acc (natRepr n ++ rest) =
      parseDigitsAux (acc * 10 ^ (natRepr n).length + n) rest := by
  intro n
  induction n using Nat.strong_induction_on with
  | _ n ih =>
    intro acc rest
    by_cases h10 : n < 10
    · rw [natRepr_small h10]
      show parseDigitsAux acc (Char.ofNat (48 + n) :: rest) = _
      rw [parseDigitsAux, if_pos (isDigitChar_ofNat h10), digitVal_ofNat h10]
      simp
    · have hdiv : n / 10 < n := Nat.div_lt_self (by omega) (by omega)
      rw [natRepr_step h10, List.append_assoc, ih (n / 10) hdiv acc _]
      show parseDigitsAux _ (Char.ofNat (48 + n % 10) :: rest) = _
      rw [parseDigitsAux, if_pos (isDigitChar_ofNat (Nat.mod_lt n (by omega))),
        digitVal_ofNat (Nat.mod_lt n (by omega))]
      have hacc : (acc * 10 ^ (natRepr (n / 10)).length + n / 10) * 10 + n % 10 =
          acc * (10 ^ (natRepr (n / 10)).length * 10) + n := by
        rw [Nat.add_mul, Nat.mul_assoc]
        omega
      rw [hacc]
      have hlen2 : (natRepr (n / 10) ++ [Char.ofNat (48 + n % 10)]).length =
          (natRepr (n / 10)).length + 1 := by simp
      rw [hlen2, pow_succ]

lemma parseDigitsAux_stop {acc : Nat} {rest : List Char} (h : delimHead rest = true) :
    parseDigitsAux acc rest = (acc, rest) := by
  cases rest with
  | nil => rfl
  | cons c cs =>
    unfold delimHead at h
    simp only [Bool.not_eq_true'] at h
    rw [parseDigitsAux, if_neg (by simp [h])]

lemma parseDigitsAux_zero_natRepr (m : Nat) {rest : List Char}
    (h : delimHead rest = true) :
    parseDigitsAux 0 (natRepr m ++ rest) = (m, rest) := by
  rw [parseDigitsAux_natRepr]
  simpa using parseDigitsAux_stop h

lemma parseNum_natRepr {m : Nat} {rest : List Char} (h : delimHead rest = true) :
    parseNum (natRepr m ++ rest) = some ((m : Int), rest) := by
  obtain ⟨c, tail, hct⟩ : ∃ c tail, natRepr m = c :: tail := by
    cases hnr : natRepr m with
    | nil => exact absurd hnr (natRepr_ne_nil m)
    | cons c t => exact ⟨c, t, rfl⟩
  have hall := natRepr_all_digits m
  rw [hct] at hall
  simp only [List.all_cons, Bool.and_eq_true] at hall
  have hcd : isDigitChar c = true := hall.1
  have hkey : parseDigitsAux 0 (c :: (tail ++ rest)) = (m, rest) := by
    have := parseDigitsAux_zero_natRepr m h
    rwa [hct, List.cons_append] at this
  have hstep : parseDigitsAux (digitVal c) (tail ++ rest) = (m, rest) := by
    rw [parseDigitsAux, if_pos hcd] at hkey
    simpa using hkey
  rw [hct, List.cons_append]
  simp only [parseNum]
  rw [if_neg (digit_ne hcd '-' (by decide)), if_pos hcd, hstep]

lemma parseNum_intRepr (n : Int) {rest : List Char} (h : delimHead rest = true) :
    parseNum (intRepr n ++ rest) = some (n, rest) := by
  cases n with
  | ofNat m => exact parseNum_natRepr h
  | negSucc m =>
    show parseNum ('-' :: (natRepr (m + 1) ++ rest)) = _
    obtain ⟨c, tail, hct⟩ : ∃ c tail, natRepr (m + 1) = c :: tail := by
      cases hnr : natRepr (m + 1) with
      | nil => exact absurd hnr (natRepr_ne_nil (m + 1))
      | cons c t => exact ⟨c, t, rfl⟩
    have hall := natRepr_all_digits (m + 1)
    rw [hct] at hall
    simp only [List.all_cons, Bool.and_eq_true] at hall
    have hcd : isDigitChar c = true := hall.1
    have hkey : parseDigitsAux 0 (c :: (tail ++ rest)) = (m + 1, rest) := by
      have := parseDigitsAux_zero_natRepr (m + 1) h
      rwa [hct, List.cons_append] at this
    have hstep : parseDigitsAux (digitVal c) (tail ++ rest) = (m + 1, rest) := by
      rw [parseDigitsAux, if_pos hcd] at hkey
      simpa using hkey
    rw [hct, List.cons_append]
    simp only [parseNum]
    rw [if_pos trivial, if_pos hcd, hstep]
    have hcast : ((m : Int) + 1) = ((m + 1 : Nat) : Int) := by push_cast; ring
    rw [Int.negSucc_eq, hcast]

lemma parseJ_ws_cons (f : Nat) (cs : List Char) : parseJ f (' ' :: cs) = parseJ f cs := by
  cases f with
  | zero => rfl
  | succ g => rfl

/-- The characters `cs` parse as exactly the value `v` (leaving any delimited
remainder untouched) at every fuel of at least `need`. -/
def ValParseN (need : Nat) (cs : List Char) (v : JVal) : Prop :=
  ∀ (f : Nat) (rest : List Char), need ≤ f → delimHead rest = true →
    parseJ (f + 1) (cs ++ rest) = some (v, rest)

lemma valParseN_mono {need need' : Nat} {cs : List Char} {v : JVal}
    (h : ValParseN need cs v) (hle : need ≤ need') : ValParseN need' cs v :=
  fun f rest hf hd => h f rest (le_trans hle hf) hd

lemma valParse_null : ValParseN 0 "null".data .jnull := by
  intro f rest _ _
  rfl

lemma parseJ_digit {c : Char} (h : isDigitChar c = true) (f : Nat) (cs : List Char) :
    parseJ (f + 1) (c :: cs) =
      (match parseNum (c :: cs) with
       | some (n, r2) => some (JVal.jnum n, r2)
       | none => none) := by
  have hws := digit_not_ws h
  have h1 : ¬ c = 'n' := digit_ne h 'n' (by decide)
  have h2 : ¬ c = 't' := digit_ne h 't' (by decide)
  have h3 : ¬ c = 'f' := digit_ne h 'f' (by decide)
  have h4 : ¬ c = '"' := digit_ne h '"' (by decide)
  have h5 : ¬ c = '[' := digit_ne h '[' (by decide)
  have h6 : ¬ c = '{' := digit_ne h '{' (by decide)
  simp [parseJ, skipWs, hws, h1, h2, h3, h4, h5, h6]

lemma valParse_str {s : String} (h : safeStr s = true) :
    ValParseN 0 (jstrChars s) (.jstr s) := by
  intro f rest _ _
  rw [jstrChars_of_safe h]
  have hshape : ('"' :: s.data ++ ['"']) ++ rest = '"' :: (s.data ++ '"' :: rest) := by
    simp
  rw [hshape]
  show (match parseStrLit (s.data ++ '"' :: rest) with
        | some (s0, r2) => some (JVal.jstr s0, r2)
        | none => none) = _
  rw [parseStrLit_safe h rest]

lemma valParse_num (n : Int) : ValParseN 0 (intRepr n) (.jnum n) := by
  intro f rest _ hd
  cases n with
  | ofNat m =>
    obtain ⟨c, tail, hct⟩ : ∃ c tail, natRepr m = c :: tail := by
      cases hnr : natRepr m with
      | nil => exact absurd hnr (natRepr_ne_nil m)
      | cons c t => exact ⟨c, t, rfl⟩
    have hall := natRepr_all_digits m
    rw [hct] at hall
    simp only [List.all_cons, Bool.and_eq_true] at hall
    show parseJ (f + 1) (natRepr m ++ rest) = _
    rw [hct, List.cons_append, parseJ_digit hall.1, ← List.cons_append, ← hct,
      parseNum_natRepr hd]
    rfl
  | negSucc m =>
    show parseJ (f + 1) ('-' :: (natRepr (m + 1) ++ rest)) = _
    have hminus : parseJ (f + 1) ('-' :: (natRepr (m + 1) ++ rest)) =
        (match parseNum ('-' :: (natRepr (m + 1) ++ rest)) with
         | some (n2, r2) => some (JVal.jnum n2, r2)
         | none => none) := rfl
    rw [hminus]
    have := parseNum_intRepr (Int.negSucc m) hd
    rw [show intRepr (Int.negSucc m) ++ rest = '-' :: (natRepr (m + 1) ++ rest) from rfl]
      at this
    rw [this]

/-- The value of an `Optional[str]` field in the dumped form and in the JSON
tree. -/
def joptJ : Option String → JVal
  | none => .jnull
  | some s => .jstr s

lemma valParse_jopt {o : Option String} (h : safeOptStr o = true) :
    ValParseN 0 (joptChars o) (joptJ o) := by
  cases o with
  | none => exact valParse_null
  | some s => exact valParse_str h

/-- The characters `cs` (a rendered member list without the closing brace)
parse under `parseMembers` as exactly `kvs` at every fuel of at least
`need`. -/
def MembersParseN (need : Nat) (cs : List Char) (kvs : List (String × JVal)) : Prop :=
  ∀ (f : Nat) (rest : List Char), need ≤ f →
    parseMembers (f + 1) (cs ++ '}' :: rest) = some (kvs, rest)

lemma membersParseN_mono {need need' : Nat} {cs : List Char} {kvs : List (String × JVal)}
    (h : MembersParseN need cs kvs) (hle : need ≤ need') : MembersParseN need' cs kvs :=
  fun f rest hf => h f rest (le_trans hle hf)

lemma membersParse_single (k : String) {vcs : List Char} {v : JVal} {nv : Nat}
    (hk : safeStr k = true) (hv : ValParseN nv vcs v) :
    MembersParseN (nv + 1) (memberChars k vcs) [(k, v)] := by
  intro f rest hf
  obtain ⟨g, rfl⟩ : ∃ g, f = g + 1 := ⟨f - 1, by omega⟩
  have hshape : memberChars k vcs ++ '}' :: rest =
      '"' :: (k.data ++ '"' :: ':' :: ' ' :: (vcs ++ '}' :: rest)) := by
    simp [memberChars]
  rw [hshape]
  show (match parseStrLit (k.data ++ '"' :: (':' :: ' ' :: (vcs ++ '}' :: rest))) with
       | some (k2, r2) =>
         (match skipWs r2 with
          | ':' :: r3 =>
            (match parseJ (g + 1) r3 with
             | some (v2, r4) =>
               (match skipWs r4 with
                | ',' :: r5 =>
                  (match parseMembers (g + 1) r5 with
                   | some (kvs2, r6) => some ((k2, v2) :: kvs2, r6)
                   | none => none)
                | '}' :: r5 => some ([(k2, v2)], r5)
                | _ => none)
             | none => none)
          | _ => none)
       | none => none) = some ([(k, v)], rest)
  rw [parseStrLit_safe hk _]
  show (match parseJ (g + 1) (' ' :: (vcs ++ '}' :: rest)) with
       | some (v2, r4) =>
         (match skipWs r4 with
          | ',' :: r5 =>
            (match parseMembers (g + 1) r5 with
             | some (kvs2, r6) => some ((k, v2) :: kvs2, r6)
             | none => none)
          | '}' :: r5 => some ([(k, v2)], r5)
          | _ => none)
       | none => none) = some ([(k, v)], rest)
  rw [parseJ_ws_cons, hv g ('}' :: rest) (by omega) rfl]
  rfl

lemma membersParse_cons (k : String) {vcs : List Char} {v : JVal} {nv : Nat}
    {mcs : List Char} {kvs : List (String × JVal)} {nm : Nat}
    (hk : safeStr k = true) (hv : ValParseN nv vcs v)
    (hm : MembersParseN nm mcs kvs) :
    MembersParseN (nv + nm + 2) (memberChars k vcs ++ ',' :: ' ' :: mcs) ((k, v) :: kvs) := by
  intro f rest hf
  obtain ⟨g, rfl⟩ : ∃ g, f = g + 1 := ⟨f - 1, by omega⟩
  have hshape : (memberChars k vcs ++ ',' :: ' ' :: mcs) ++ '}' :: rest =
      '"' :: (k.data ++ '"' :: ':' :: ' ' :: (vcs ++ ',' :: ' ' :: (mcs ++ '}' :: rest))) := by
    simp [memberChars]
  rw [hshape]
  show (match parseStrLit (k.data ++ '"' :: (':' :: ' ' :: (vcs ++ ',' :: ' ' :: (mcs ++ '}' :: rest)))) with
       | some (k2, r2) =>
         (match skipWs r2 with
          | ':' :: r3 =>
            (match parseJ (g + 1) r3 with
             | some (v2, r4) =>
               (match skipWs r4 with
                | ',' :: r5 =>
                  (match parseMembers (g + 1) r5 with
                   | some (kvs2, r6) => some ((k2, v2) :: kvs2, r6)
                   | none => none)
                | '}' :: r5 => some ([(k2, v2)], r5)
                | _ => none)
             | none => none)
          | _ => none)
       | none => none) = some ((k, v) :: kvs, rest)
  rw [parseStrLit_safe hk _]
  show (match parseJ (g + 1) (' ' :: (vcs ++ ',' :: ' ' :: (mcs ++ '}' :: rest))) with
       | some (v2, r4) =>
         (match skipWs r4 with
          | ',' :: r5 =>
            (match parseMembers (g + 1) r5 with
             | some (kvs2, r6) => some ((k, v2) :: kvs2, r6)
             | none => none)
          | '}' :: r5 => some ([(k, v2)], r5)
          | _ => none)
       | none => none) = some ((k, v) :: kvs, rest)
  rw [parseJ_ws_cons, hv g (',' :: ' ' :: (mcs ++ '}' :: rest)) (by omega) rfl]
  show (match parseMembers (g + 1) (' ' :: (mcs ++ '}' :: rest)) with
       | some (kvs2, r6) => some ((k, v) :: kvs2, r6)
       | none => none) = some ((k, v) :: kvs, rest)
  obtain ⟨g2, rfl⟩ : ∃ g2, g = g2 + 1 := ⟨g - 1, by omega⟩
  have hwsm : parseMembers (g2 + 1 + 1) (' ' :: (mcs ++ '}' :: rest)) =
      parseMembers (g2 + 1 + 1) (mcs ++ '}' :: rest) := rfl
  rw [hwsm, hm (g2 + 1) rest (by omega)]

lemma valParse_obj {need : Nat} {cs : List Char} {kvs : List (String × JVal)}
    {tail : List Char}
    (hm : MembersParseN need cs kvs) (hcs : cs = '"' :: tail) :
    ValParseN (need + 2) ('{' :: cs ++ ['}']) (.jobj kvs) := by
  intro f rest hf _
  obtain ⟨g, rfl⟩ : ∃ g, f = g + 1 := ⟨f - 1, by omega⟩
  have hshape : ('{' :: cs ++ ['}']) ++ rest = '{' :: (cs ++ '}' :: rest) := by
    simp
  rw [hshape, hcs]
  show (match skipWs ('"' :: (tail ++ '}' :: rest)) with
        | '}' :: r2 => some (JVal.jobj [], r2)
        | r2 =>
          (match parseMembers (g + 1) r2 with
           | some (kvs2, r3) => some (JVal.jobj kvs2, r3)
           | none => none)) = some (.jobj kvs, rest)
  show (match parseMembers (g + 1) ('"' :: (tail ++ '}' :: rest)) with
        | some (kvs2, r3) => some (JVal.jobj kvs2, r3)
        | none => none) = some (.jobj kvs, rest)
  have hback : ('"' : Char) :: (tail ++ '}' :: rest) = cs ++ '}' :: rest := by
    rw [hcs]
    rfl
  rw [hback, hm g rest (by omega)]



/-- The JSON tree `json.loads` yields for a dumped slide. -/
def slideJVal (s : SlideContent) : JVal :=
  .jobj
    [("page_number", .jnum s.page_number),
     ("title", .jstr s.title),
     ("layout", .jstr s.layout),
     ("body_text", joptJ s.body_text),
     ("speaker_notes", joptJ s.speaker_notes),
     ("image_prompt", joptJ s.image_prompt),
     ("image_path", joptJ s.image_path)]

lemma safeSlide_fields {s : SlideContent} (h : safeSlide s = true) :
    safeStr s.title = true ∧ safeStr s.layout = true ∧ safeOptStr s.body_text = true
    ∧ safeOptStr s.speaker_notes = true ∧ safeOptStr s.image_prompt = true
    ∧ safeOptStr s.image_path = true := by
  unfold safeSlide at h
  simp only [Bool.and_eq_true] at h
  tauto

lemma valParse_dumpSlide {s : SlideContent} (h : safeSlide s = true) :
    ValParseN 100 (dumpSlideChars s) (slideJVal s) := by
  obtain ⟨ht, hl, hb, hn, hp, hi⟩ := safeSlide_fields h
  have h7 := membersParse_single "image_path" (by decide) (valParse_jopt hi)
  have h6 := membersParse_cons "image_prompt" (by decide) (valParse_jopt hp) h7
  have h5 := membersParse_cons "speaker_notes" (by decide) (valParse_jopt hn) h6
  have h4 := membersParse_cons "body_text" (by decide) (valParse_jopt hb) h5
  have h3 := membersParse_cons "layout" (by decide) (valParse_str hl) h4
  have h2 := membersParse_cons "title" (by decide) (valParse_str ht) h3
  have h1 := membersParse_cons "page_number" (by decide)
    (valParse_num s.page_number) h2
  exact valParseN_mono (valParse_obj h1 rfl) (by omega)

lemma parseJson_of_valParse {cs : List Char} {v : JVal} {need : Nat}
    (h : ValParseN need cs v) (hneed : need ≤ 999) :
    parseJson ⟨cs⟩ = some v := by
  have hv := h (cs.length + 999) [] (by omega) rfl
  rw [List.append_nil] at hv
  show (match parseJ (cs.length + 1000) cs with
        | some (v2, rest) => if skipWs rest = [] then some v2 else none
        | none => none) = some v
  rw [show cs.length + 1000 = (cs.length + 999) + 1 from by omega, hv]
  rfl

lemma skipWs_eq_self {l : List Char} (h : ∀ c, l.head? = some c → isWsChar c = false) :
    skipWs l = l := by
  cases l with
  | nil => rfl
  | cons c cs => simp [skipWs, h c rfl]

lemma trimChars_eq_self {l : List Char}
    (hh : ∀ c, l.head? = some c → isWsChar c = false)
    (hl : ∀ c, l.getLast? = some c → isWsChar c = false) :
    trimChars l = l := by
  unfold trimChars
  rw [skipWs_eq_self hh]
  rw [skipWs_eq_self (by
    intro c hc
    rw [List.head?_reverse] at hc
    exact hl c hc)]
  exact List.reverse_reverse l

lemma clean_obj {ms : List (String × List Char)} :
    clean ⟨objChars ms⟩ = ⟨objChars ms⟩ := by
  have hh : ∀ c, (objChars ms).head? = some c → isWsChar c = false := by
    intro c hc
    have : c = '{' := by
      have : (objChars ms).head? = some '{' := rfl
      rw [this] at hc
      exact (Option.some.injEq _ _ ▸ hc).symm
    subst this
    rfl
  have hgl : (objChars ms).getLast? = some '}' := by
    show (('{' :: membersChars ms) ++ ['}']).getLast? = some '}'
    exact List.getLast?_concat _
  have hl : ∀ c, (objChars ms).getLast? = some c → isWsChar c = false := by
    intro c hc
    rw [hgl] at hc
    have : c = '}' := (Option.some.injEq _ _ ▸ hc).symm
    subst this
    rfl
  unfold clean
  have h1 : pyStrip ⟨objChars ms⟩ = ⟨objChars ms⟩ :=
    congrArg String.mk (trimChars_eq_self hh hl)
  rw [h1]
  have h2 : pyStartsWith ⟨objChars ms⟩ "```json" = false := rfl
  have h3 : pyEndsWith ⟨objChars ms⟩ "```" = false := by
    show isPrefixL "```".data.reverse ((('{' :: membersChars ms) ++ ['}']).reverse) = false
    rw [List.reverse_append]
    rfl
  simp only [h2, Bool.false_eq_true, if_false, h3]

lemma validateSlide_slideJVal (s : SlideContent) : validateSlide (slideJVal s) = some s := by
  obtain ⟨pn, ti, la, bt, sn, ip, ipa⟩ := s
  cases bt <;> cases sn <;> cases ip <;> cases ipa <;>
    simp [validateSlide, slideJVal, jLookup, validateOptStr, joptJ]

/-- Printer–parser round trip for a slide: the content stage's parse of a
dumped slide recovers exactly that slide (for escape-free field content). -/
lemma parseSlideResp_dumpSlide {s : SlideContent} (h : safeSlide s = true) :
    parseSlideResp (dumpSlide s) = some s := by
  unfold parseSlideResp
  have hclean : clean (dumpSlide s) = dumpSlide s := clean_obj
  rw [hclean,
    show parseJson (dumpSlide s) = some (slideJVal s) from
      parseJson_of_valParse (valParse_dumpSlide h) (by omega)]
  simp [validateSlide_slideJVal]

lemma copyParseQuery_payload {s : SlideContent} {topic : String}
    (hs : safeSlide s = true) (ht : safeStr topic = true) :
    copyParseQuery (orchPayload s topic) = some (s, .jstr topic) := by
  have htop := membersParse_single "topic" (by decide) (valParse_str ht)
  have hpair := membersParse_cons "slide" (by decide) (valParse_dumpSlide hs) htop
  have hobj := valParse_obj hpair rfl
  have hp : parseJson (orchPayload s topic) =
      some (.jobj [("slide", slideJVal s), ("topic", .jstr topic)]) :=
    parseJson_of_valParse hobj (by omega)
  unfold copyParseQuery
  rw [hp]
  simp [jLookup, validateSlide_slideJVal]

lemma safeSlide_copyMerge {s llm : SlideContent}
    (hs : safeSlide s = true) (hl : safeSlide llm = true) :
    safeSlide (copyMerge s llm) = true := by
  obtain ⟨h1, h2, _, _, _, h6⟩ := safeSlide_fields hs
  obtain ⟨_, _, g3, g4, g5, _⟩ := safeSlide_fields hl
  unfold safeSlide copyMerge
  simp [h1, h2, g3, g4, g5, h6]

/-! ### C9 -/

lemma imageSlideStep_frame (s : SlideContent) (r : String) :
    (imageSlideStep s r).page_number = s.page_number
    ∧ (imageSlideStep s r).title = s.title
    ∧ (imageSlideStep s r).layout = s.layout
    ∧ (imageSlideStep s r).body_text = s.body_text
    ∧ (imageSlideStep s r).speaker_notes = s.speaker_notes
    ∧ (imageSlideStep s r).image_prompt = s.image_prompt := by
  unfold imageSlideStep
  split <;> try split
  all_goals exact ⟨rfl, rfl, rfl, rfl, rfl, rfl⟩

lemma imageLoop_snd_getElem? (resp : Nat → String) (n i : Nat)
    (ss : List SlideContent) (j : Nat) :
    (imageLoop resp n i ss).2[j]? =
      (ss[j]?).map (fun s => if hasPrompt s then imageSlideStep s (resp (i + j)) else s) := by
  induction ss generalizing i j with
  | nil => simp [imageLoop]
  | cons s rest ih =>
    by_cases hp : hasPrompt s <;>
      cases j with
      | zero => simp [imageLoop, hp]
      | succ k =>
        have harith : i + 1 + k = i + (k + 1) := by omega
        simp [imageLoop, hp, List.getElem?_cons_succ, ih (i + 1) k, harith]

/-- C9: stage field ownership — the copywriter's merge keeps `page_number`,
`title`, `layout` (and `image_path`) from the incoming slide; composed with
the orchestrator's payload serialization and reply parse, the content stage's
per-slide update for a copywriter-served reply is exactly that merge, so
`layout` and `page_number` equal their pre-stage values; the image stage's
per-slide update changes at most `image_path`; and slides without a (truthy)
`image_prompt` pass through the image loop untouched. -/
theorem stage_field_ownership :
    (∀ s r : SlideContent,
        (copyMerge s r).page_number = s.page_number
        ∧ (copyMerge s r).title = s.title
        ∧ (copyMerge s r).layout = s.layout
        ∧ (copyMerge s r).image_path = s.image_path)
    ∧ (∀ (s llm : SlideContent) (topic errText : String),
        safeSlide s = true → safeSlide llm = true → safeStr topic = true →
        contentUpdateSlide s ((copywriter_stream (orchPayload s topic) llm errText).content) =
          copyMerge s llm)
    ∧ (∀ (s : SlideContent) (r : String),
        (imageSlideStep s r).page_number = s.page_number
        ∧ (imageSlideStep s r).title = s.title
        ∧ (imageSlideStep s r).layout = s.layout
        ∧ (imageSlideStep s r).body_text = s.body_text
        ∧ (imageSlideStep s r).speaker_notes = s.speaker_notes
        ∧ (imageSlideStep s r).image_prompt = s.image_prompt)
    ∧ (∀ (resp : Nat → String) (n i : Nat) (ss : List SlideContent) (j : Nat),
        (imageLoop resp n i ss).2[j]? =
          (ss[j]?).map (fun s => if hasPrompt s then imageSlideStep s (resp (i + j)) else s))
    ∧ (∀ (resp : Nat → String) (n i : Nat) (ss : List SlideContent) (j : Nat)
        (s : SlideContent),
        ss[j]? = some s → hasPrompt s = false →
        (imageLoop resp n i ss).2[j]? = some s) := by
  refine ⟨fun s r => ⟨rfl, rfl, rfl, rfl⟩, ?_, imageSlideStep_frame,
    imageLoop_snd_getElem?, ?_⟩
  · intro s llm topic errText hs hl ht
    unfold copywriter_stream
    rw [copyParseQuery_payload hs ht]
    show contentUpdateSlide s (dumpSlide (copyMerge s llm)) = copyMerge s llm
    unfold contentUpdateSlide
    rw [parseSlideResp_dumpSlide (safeSlide_copyMerge hs hl)]
  · intro resp n i ss j s hj hp
    rw [imageLoop_snd_getElem?, hj]
    simp [hp]

/-- Concrete outline-stage slide for the C9 witness. -/
def sWit : SlideContent := ⟨1, "Mars", "Title Slide", none, none, none, none⟩

/-- Concrete structured model output for the C9 witness. -/
def llmWit : SlideContent := ⟨1, "x", "y", some "Body", some "Notes", some "Prompt", none⟩

theorem stage_field_ownership_witness :
    safeSlide sWit = true ∧ safeSlide llmWit = true ∧ safeStr "Mars" = true
    ∧ contentUpdateSlide sWit
        ((copywriter_stream (orchPayload sWit "Mars") llmWit "e").content) =
        copyMerge sWit llmWit :=
  ⟨by decide, by decide, by decide,
   stage_field_ownership.2.1 sWit llmWit "Mars" "e" (by decide) (by decide) (by decide)⟩

/-- A run whose outline-stage discovery raises with message `"m"`. -/
def wDiscErr : World :=
  ⟨.error "m", "", .ok (), fun _ => "", .ok (), fun _ => "", .ok (), ""⟩

theorem format_response_fixed_shape_witness :
    fmt ("Error: " ++ "m") true ∈ (streamRun "t" wDiscErr).events
    ∧ (fmt ("Error: " ++ "m") true).response_type = "text"
    ∧ (fmt ("Error: " ++ "m") true).require_user_input = false := by
  have hm : fmt ("Error: " ++ "m") true ∈ (streamRun "t" wDiscErr).events := by decide
  exact ⟨hm, (format_response_fixed_shape.2.2.2.2 "t" wDiscErr _ hm).1,
    (format_response_fixed_shape.2.2.2.2 "t" wDiscErr _ hm).2⟩

end AiPpt
